import Mathlib

/-!
Verification of the Resolver/Filter Engine of `claude_conversation_filter.py`.

The Python source operates on JSON documents loaded by `json.load`.  We embed
JSON values as the inductive type `Json` (numbers are modelled as integers;
objects are association lists in key-insertion order, with the unique-key
property that `json.load` guarantees).  Python's dynamic behaviours that the
source relies on are modelled explicitly:

  * `pyTruthy` — Python truthiness (`None`, `False`, `0`, `""`, `[]`, `{}`
    are falsy);
  * `pyOr` — the value of an `a or b or ...` chain (first truthy value,
    otherwise the last value);
  * `pyStr` / `pyRepr` — Python `str()` / `repr()` of a JSON value
    (`str(None) = "None"`, containers render their elements with `repr`);
  * `pyIterate` — Python `for x in v`: lists yield elements, dicts yield
    keys, strings yield one-character strings, and `None` / booleans /
    numbers raise `TypeError`;
  * `pyLen` — Python `len()`: defined on lists, dicts and strings, raises
    `TypeError` otherwise.

A function that can raise is embedded in `Except Unit`, where `.error ()`
stands for an escaping exception.
-/

deriving instance DecidableEq for Except

namespace ClaudeExport

/-- A JSON value as produced by `json.load`: null, booleans, numbers
(modelled as integers), strings, arrays, and objects (association lists in
key order). -/
inductive Json where
  | null : Json
  | bool : Bool → Json
  | num : Int → Json
  | str : String → Json
  | arr : List Json → Json
  | obj : List (String × Json) → Json

/-- Python dict lookup `d.get(k)` / `d[k]`, returning the value stored at
the key (first occurrence; keys are unique in decoded JSON). -/
def dictGet (kvs : List (String × Json)) (k : String) : Option Json :=
  match kvs.find? (fun p => p.1 == k) with
  | some p => some p.2
  | none => none

/-- Python `k in d` for a dict. -/
def hasKey (kvs : List (String × Json)) (k : String) : Bool :=
  (dictGet kvs k).isSome

/-- Python `d.get(k)`: the stored value, or `None` when the key is absent. -/
def pyGet (kvs : List (String × Json)) (k : String) : Json :=
  (dictGet kvs k).getD Json.null

/-- Python `d[k] = v` on a dict: replace the value in place when the key is
present, append the binding otherwise (insertion-order semantics). -/
def dictSet (kvs : List (String × Json)) (k : String) (v : Json) :
    List (String × Json) :=
  if hasKey kvs k then
    kvs.map (fun p => if p.1 == k then (k, v) else p)
  else
    kvs ++ [(k, v)]

/-- Python `d.pop(k, None)` on a dict: remove the binding for `k`. -/
def dictPop (kvs : List (String × Json)) (k : String) : List (String × Json) :=
  kvs.filter (fun p => p.1 != k)

/-- Python truthiness of a JSON value: `None`, `False`, `0`, `""`, `[]`
and `{}` are falsy, everything else is truthy. -/
def pyTruthy : Json → Bool
  | Json.null => false
  | Json.bool b => b
  | Json.num n => n != 0
  | Json.str s => s != ""
  | Json.arr xs => !xs.isEmpty
  | Json.obj kvs => !kvs.isEmpty

/-- The value of a Python `v1 or v2 or ... or vn` chain: the first truthy
value, otherwise the last value (so an all-falsy chain yields the final
operand, e.g. `None` when it was an absent `.get`). -/
def pyOr : List Json → Json
  | [] => Json.null
  | [v] => v
  | v :: vs => if pyTruthy v then v else pyOr vs

mutual

/-- Python `repr()` of a JSON value (string escaping inside quotes is not
modelled; no claim depends on it). -/
def pyRepr : Json → String
  | Json.null => "None"
  | Json.bool true => "True"
  | Json.bool false => "False"
  | Json.num n => toString n
  | Json.str s => "\x27" ++ s ++ "\x27"
  | Json.arr xs => "[" ++ pyReprArr xs ++ "]"
  | Json.obj kvs => "\x7b" ++ pyReprObj kvs ++ "\x7d"

/-- Comma-separated `repr`s of the elements of a Python list. -/
def pyReprArr : List Json → String
  | [] => ""
  | [x] => pyRepr x
  | x :: xs => pyRepr x ++ ", " ++ pyReprArr xs

/-- Comma-separated `repr(k): repr(v)` renderings of the items of a dict. -/
def pyReprObj : List (String × Json) → String
  | [] => ""
  | [(k, v)] => "\x27" ++ k ++ "\x27: " ++ pyRepr v
  | (k, v) :: kvs => "\x27" ++ k ++ "\x27: " ++ pyRepr v ++ ", " ++ pyReprObj kvs

end

/-- Python `str()` of a JSON value: strings render as themselves, every
other value renders as its `repr` (`str(None) = "None"`, `str(0) = "0"`). -/
def pyStr : Json → String
  | Json.str s => s
  | v => pyRepr v

/-- Python `for x in v`: lists yield their elements, dicts yield their keys,
strings yield their characters as one-character strings; `None`, booleans
and numbers are not iterable (`TypeError`). -/
def pyIterate : Json → Except Unit (List Json)
  | Json.arr xs => Except.ok xs
  | Json.obj kvs => Except.ok (kvs.map (fun p => Json.str p.1))
  | Json.str s => Except.ok (s.data.map (fun c => Json.str (String.singleton c)))
  | _ => Except.error ()

/-- Python `len()`: length of a list, key count of a dict, character count
of a string; `TypeError` otherwise. -/
def pyLen : Json → Except Unit Nat
  | Json.arr xs => Except.ok xs.length
  | Json.obj kvs => Except.ok kvs.length
  | Json.str s => Except.ok s.length
  | _ => Except.error ()

/-!
All three engine functions recurse in exactly one place: a dict document
with a `conversations` key is re-processed on that key's value
(`extract_users` line 154, `get_user_conversation_count` line 215,
`filter_conversations_by_user` line 294 of the source).  We factor this
shared tail recursion into `unwrap`, implemented with explicit fuel
(`sizeOf` strictly bounds the chain length) so that every definition
computes by kernel reduction.
-/

mutual

/-- A structural size for JSON values, used to bound the length of the
`conversations`-key chain. -/
def jsonSize : Json → Nat
  | Json.null => 1
  | Json.bool _ => 1
  | Json.num _ => 1
  | Json.str _ => 1
  | Json.arr xs => 1 + jsonSizeArr xs
  | Json.obj kvs => 1 + jsonSizeObj kvs

/-- Total size of the elements of a JSON array. -/
def jsonSizeArr : List Json → Nat
  | [] => 0
  | x :: xs => 1 + jsonSize x + jsonSizeArr xs

/-- Total size of the items of a JSON object. -/
def jsonSizeObj : List (String × Json) → Nat
  | [] => 0
  | kv :: kvs => 1 + jsonSize kv.2 + jsonSizeObj kvs

end

/-- Follow the `conversations`-key chain for at most `fuel` steps. -/
def unwrapFuel : Nat → Json → Json
  | 0, d => d
  | Nat.succ n, d =>
    match d with
    | Json.obj kvs =>
      match dictGet kvs "conversations" with
      | some v => unwrapFuel n v
      | none => d
    | _ => d

/-- The document after following every `if "conversations" in data: recurse
on data["conversations"]` step of the source; the result is not a dict with
a `conversations` key. -/
def unwrap (d : Json) : Json :=
  unwrapFuel (jsonSize d) d

/-- Conversation-owner resolution as written in `extract_users`
(source lines 112–123): the truthy-first chain
`user_id or userId or user or author`, then the `account` fallback
(`account.uuid or account.id` for a dict account, the account itself for a
string account). -/
def convUserExtract (kvs : List (String × Json)) : Json :=
  let u := pyOr [pyGet kvs "user_id", pyGet kvs "userId",
                 pyGet kvs "user", pyGet kvs "author"]
  if pyTruthy u then u
  else
    match dictGet kvs "account" with
    | some (Json.obj a) => pyOr [pyGet a "uuid", pyGet a "id"]
    | some (Json.str s) => Json.str s
    | _ => u

/-- Conversation-owner resolution as written in `get_user_conversation_count`
(source lines 171–182); textually the same policy as in `extract_users`. -/
def convUserCount (kvs : List (String × Json)) : Json :=
  let u := pyOr [pyGet kvs "user_id", pyGet kvs "userId",
                 pyGet kvs "user", pyGet kvs "author"]
  if pyTruthy u then u
  else
    match dictGet kvs "account" with
    | some (Json.obj a) => pyOr [pyGet a "uuid", pyGet a "id"]
    | some (Json.str s) => Json.str s
    | _ => u

/-- Conversation-owner resolution as written in `filter_conversations_by_user`
(source lines 236–247); textually the same policy as in `extract_users`. -/
def convUserFilter (kvs : List (String × Json)) : Json :=
  let u := pyOr [pyGet kvs "user_id", pyGet kvs "userId",
                 pyGet kvs "user", pyGet kvs "author"]
  if pyTruthy u then u
  else
    match dictGet kvs "account" with
    | some (Json.obj a) => pyOr [pyGet a "uuid", pyGet a "id"]
    | some (Json.str s) => Json.str s
    | _ => u

/-- Message-sender resolution, written identically at its six occurrences in
the source: `user_id or userId or user or author or sender`. -/
def msgUserRaw (mkvs : List (String × Json)) : Json :=
  pyOr [pyGet mkvs "user_id", pyGet mkvs "userId", pyGet mkvs "user",
        pyGet mkvs "author", pyGet mkvs "sender"]

/-- `conversation.get(key, [])` followed by iteration: an absent key yields
no elements; a present value is iterated with Python semantics (may raise). -/
def getMsgs (kvs : List (String × Json)) (k : String) :
    Except Unit (List Json) :=
  match dictGet kvs k with
  | none => Except.ok []
  | some v => pyIterate v

/-- The message-level match test of the counter and the filter: the entry is
a dict and `str(msg_user) == str(target)` (note: an entry with no sender
fields resolves to `None`, whose string form is `"None"`). -/
def matchesTarget (u : Json) (m : Json) : Bool :=
  match m with
  | Json.obj mkvs => pyStr (msgUserRaw mkvs) == pyStr u
  | _ => false

/-- The conversation-level match test of the counter:
`str(conv_user) == str(user_id)` (source line 184). -/
def convMatchCount (u : Json) (kvs : List (String × Json)) : Bool :=
  pyStr (convUserCount kvs) == pyStr u

/-- The conversation-level match test of the filter:
`str(conv_user) == str(selected_user)` (source line 249). -/
def convMatchFilter (u : Json) (kvs : List (String × Json)) : Bool :=
  pyStr (convUserFilter kvs) == pyStr u

/-- The identifier strings one conversation record adds to the user set in
`extract_users` (source lines 110–150): the resolved owner when truthy,
then every truthy message sender of `messages` and of `chat_messages`;
iterating a non-iterable container raises. -/
def extractConvUsers (c : Json) : Except Unit (List String) :=
  match c with
  | Json.obj kvs => do
    let base : List String :=
      if pyTruthy (convUserExtract kvs) then [pyStr (convUserExtract kvs)]
      else []
    let msgs ← getMsgs kvs "messages"
    let fromMsgs := msgs.filterMap (fun m =>
      match m with
      | Json.obj mkvs =>
        if pyTruthy (msgUserRaw mkvs) then some (pyStr (msgUserRaw mkvs))
        else none
      | _ => none)
    let chat ← getMsgs kvs "chat_messages"
    let fromChat := chat.filterMap (fun m =>
      match m with
      | Json.obj mkvs =>
        if pyTruthy (msgUserRaw mkvs) then some (pyStr (msgUserRaw mkvs))
        else none
      | _ => none)
    Except.ok (base ++ fromMsgs ++ fromChat)
  | _ => Except.ok []

/-- All identifier strings contributed by a list of conversation records,
in document order. -/
def listContrib : List Json → Except Unit (List String)
  | [] => Except.ok []
  | c :: cs => do
    let a ← extractConvUsers c
    let b ← listContrib cs
    Except.ok (a ++ b)

/-- Python `<` on strings: lexicographic comparison of code points. -/
def charListLt : List Char → List Char → Bool
  | [], [] => false
  | [], _ :: _ => true
  | _ :: _, [] => false
  | a :: as, b :: bs =>
    if a.toNat < b.toNat then true
    else if b.toNat < a.toNat then false
    else charListLt as bs

/-- Python `<=` on strings (`a <= b` iff not `b < a`). -/
def pyStrLe (a b : String) : Bool :=
  !(charListLt b.data a.data)

/-- The ordering relation used by Python `sorted` on strings, as a
proposition. -/
def strLeProp (a b : String) : Prop :=
  pyStrLe a b = true

instance : DecidableRel strLeProp :=
  fun a b => inferInstanceAs (Decidable (pyStrLe a b = true))

/-- Python `sorted(list(users))` for a set of strings accumulated from the
given list: the sorted duplicate-free list of its elements. -/
def sortedDedup (xs : List String) : List String :=
  List.insertionSort strLeProp xs.dedup

/-- `extract_users` (source lines 102–160): list documents are scanned
conversation by conversation; dict documents follow the `conversations`
chain (`unwrap`) and otherwise contribute their keys; any other document
yields the empty list.  `.error ()` models an escaping `TypeError`. -/
def extract_users (d : Json) : Except Unit (List String) :=
  match unwrap d with
  | Json.arr l => (listContrib l).map sortedDedup
  | Json.obj kvs => Except.ok (sortedDedup (kvs.map (fun p => p.1)))
  | _ => Except.ok []

/-- The list-document loop of `get_user_conversation_count` (source lines
167–212), carrying the running count: a conversation increments on a
conversation-level match, else on a `messages` match (early exit), else —
only while the RUNNING COUNT is still zero (`if count == 0`, line 201) — on
a `chat_messages` match. -/
def countList (u : Json) : List Json → Nat → Except Unit Nat
  | [], count => Except.ok count
  | c :: rest, count =>
    match c with
    | Json.obj kvs =>
      if convMatchCount u kvs then countList u rest (count + 1)
      else do
        let msgs ← getMsgs kvs "messages"
        if msgs.any (matchesTarget u) then countList u rest (count + 1)
        else
          if count == 0 then do
            let chat ← getMsgs kvs "chat_messages"
            if chat.any (matchesTarget u) then countList u rest (count + 1)
            else countList u rest count
          else countList u rest count
    | _ => countList u rest count

/-- `get_user_conversation_count` (source lines 163–225).  For a dict
document (after the `conversations` chain) keyed by user: the length of the
target key's list value, `len` of its `conversations` sub-value when the
value is a dict with that key, and 0 otherwise. -/
def get_user_conversation_count (d : Json) (u : Json) : Except Unit Nat :=
  match unwrap d with
  | Json.arr l => countList u l 0
  | Json.obj kvs =>
    match dictGet kvs (pyStr u) with
    | some (Json.arr xs) => Except.ok xs.length
    | some (Json.obj m) =>
      match dictGet m "conversations" with
      | some v => pyLen v
      | none => Except.ok 0
    | some _ => Except.ok 0
    | none => Except.ok 0
  | _ => Except.ok 0

/-- The list-document loop of `filter_conversations_by_user` (source lines
232–291): conversation-level match → included verbatim; else matching
`messages` entries → shallow copy with `messages` replaced; else matching
`chat_messages` entries → shallow copy with `chat_messages` replaced and
`messages` popped when present (and no user messages were found); else
omitted. -/
def filterList (u : Json) : List Json → Except Unit (List Json)
  | [] => Except.ok []
  | c :: rest =>
    match c with
    | Json.obj kvs =>
      if convMatchFilter u kvs then do
        let r ← filterList u rest
        Except.ok (Json.obj kvs :: r)
      else do
        let msgs ← getMsgs kvs "messages"
        let userMessages := msgs.filter (matchesTarget u)
        if !userMessages.isEmpty then do
          let r ← filterList u rest
          Except.ok (Json.obj (dictSet kvs "messages" (Json.arr userMessages)) :: r)
        else do
          let chat ← getMsgs kvs "chat_messages"
          let userChat := chat.filter (matchesTarget u)
          if !userChat.isEmpty then
            let fc := dictSet kvs "chat_messages" (Json.arr userChat)
            let fc2 :=
              if hasKey fc "messages" && userMessages.isEmpty then
                dictPop fc "messages"
              else fc
            do
              let r ← filterList u rest
              Except.ok (Json.obj fc2 :: r)
          else filterList u rest
    | _ => filterList u rest

/-- `filter_conversations_by_user` (source lines 228–306).  For a dict
document (after the `conversations` chain) keyed by user: the target key's
value as-is when a list, wrapped in a singleton when a dict, and the empty
list otherwise. -/
def filter_conversations_by_user (d : Json) (u : Json) :
    Except Unit (List Json) :=
  match unwrap d with
  | Json.arr l => filterList u l
  | Json.obj kvs =>
    match dictGet kvs (pyStr u) with
    | some (Json.arr xs) => Except.ok xs
    | some (Json.obj m) => Except.ok [Json.obj m]
    | some _ => Except.ok []
    | none => Except.ok []
  | _ => Except.ok []

/-- Python slicing `s[:n]` on a string: the first `n` characters, or the
whole string when it is shorter (never an error). -/
def pyTake (s : String) (n : Nat) : String :=
  String.mk (s.data.take n)

/-- An identity record as built by `load_user_info`: the values stored under
the `name` and `email` keys (either may be `None`). -/
structure UserInfo where
  name : Json
  email : Json

/-- Mapping lookup for the identity mapping (dict keyed by identifier). -/
def infoGet (m : List (String × UserInfo)) (k : String) : Option UserInfo :=
  match m.find? (fun p => p.1 == k) with
  | some p => some p.2
  | none => none

/-- `get_user_display_name` (source lines 82–99) for a string identifier:
identifier as-is when the mapping is empty or lacks the key; otherwise
`"name (email)"` when both are truthy, `"name [<first 8>...]"` /
`"email [<first 8>...]"` when only one is, identifier as-is when neither. -/
def get_user_display_name (user_id : String)
    (m : List (String × UserInfo)) : String :=
  if m.isEmpty || !(infoGet m user_id).isSome then user_id
  else
    match infoGet m user_id with
    | some info =>
      if pyTruthy info.name && pyTruthy info.email then
        pyStr info.name ++ " (" ++ pyStr info.email ++ ")"
      else if pyTruthy info.name then
        pyStr info.name ++ " [" ++ pyTake user_id 8 ++ "...]"
      else if pyTruthy info.email then
        pyStr info.email ++ " [" ++ pyTake user_id 8 ++ "...]"
      else user_id
    | none => user_id

/-- Is the value a JSON list? (`isinstance(v, list)`). -/
def isListJson : Json → Bool
  | Json.arr _ => true
  | _ => false

/-- Is the value a JSON dict? (`isinstance(v, dict)`). -/
def isDictJson : Json → Bool
  | Json.obj _ => true
  | _ => false

/-- Is the value iterable / sized in Python (list, dict or string)?  `None`,
booleans and numbers make `for x in v` and `len(v)` raise `TypeError`. -/
def isIterableJson : Json → Bool
  | Json.arr _ => true
  | Json.obj _ => true
  | Json.str _ => true
  | _ => false

/-- A conversation record whose `messages` and `chat_messages` values, when
present, are iterable — the records on which the message-scanning loops of
the source cannot raise. -/
def convContainersIterable : Json → Bool
  | Json.obj kvs =>
    (match dictGet kvs "messages" with
     | some v => isIterableJson v
     | none => true) &&
    (match dictGet kvs "chat_messages" with
     | some v => isIterableJson v
     | none => true)
  | _ => true

/-- A keyed-by-user dict value on which the counter's `len` calls cannot
raise: when it is a dict with a `conversations` key, that sub-value has a
Python length. -/
def keyedValueSized : Json → Bool
  | Json.obj m =>
    (match dictGet m "conversations" with
     | some v => isIterableJson v
     | none => true)
  | _ => true

/-- Documents on which none of the three engine functions can raise: after
the `conversations` chain, a list document has only conversations with
iterable message containers, and a keyed-by-user dict document has only
values whose `conversations` sub-value (if any) has a length. -/
def wellFormed (d : Json) : Bool :=
  match unwrap d with
  | Json.arr l => l.all convContainersIterable
  | Json.obj kvs => kvs.all (fun p => keyedValueSized p.2)
  | _ => true

/-- A list of conversation records whose `messages` and `chat_messages`
values, when present, are JSON lists — the shape Claim C5 speaks about
("its `messages` list"). -/
def msgContainersAreLists (l : List Json) : Bool :=
  l.all (fun c =>
    match c with
    | Json.obj kvs =>
      (match dictGet kvs "messages" with
       | some v => isListJson v
       | none => true) &&
      (match dictGet kvs "chat_messages" with
       | some v => isListJson v
       | none => true)
    | _ => true)

/-- The `messages`/`chat_messages` list of a conversation as Claim C5 reads
it: the stored list when the key holds one, otherwise empty. -/
def specMsgList (kvs : List (String × Json)) (k : String) : List Json :=
  match dictGet kvs k with
  | some (Json.arr xs) => xs
  | _ => []

/-- The contribution of one conversation to the filtered output, written
from the specification sentence of Claim C5: verbatim on a conversation
-level match; else a shallow copy with `messages` replaced by exactly the
matching messages when some `messages` entry resolves to the target; else a
shallow copy with `chat_messages` replaced by exactly the matching entries
and the `messages` key removed, when some `chat_messages` entry resolves to
the target; else nothing. -/
def filterSpecStep (u : Json) (c : Json) : List Json :=
  match c with
  | Json.obj kvs =>
    if pyStr (convUserFilter kvs) = pyStr u then [Json.obj kvs]
    else
      let matchingMsgs := (specMsgList kvs "messages").filter (matchesTarget u)
      if !matchingMsgs.isEmpty then
        [Json.obj (dictSet kvs "messages" (Json.arr matchingMsgs))]
      else
        let matchingChat := (specMsgList kvs "chat_messages").filter (matchesTarget u)
        if !matchingChat.isEmpty then
          [Json.obj (dictPop (dictSet kvs "chat_messages" (Json.arr matchingChat)) "messages")]
        else []
  | _ => []

/-! ### Basic lemmas about dict access and the `conversations` chain -/

theorem dictGet_none_of_hasKey_false {kvs : List (String × Json)} {k : String}
    (h : hasKey kvs k = false) : dictGet kvs k = none := by
  unfold hasKey at h
  exact Option.not_isSome_iff_eq_none.mp (by simp [h])

theorem jsonSize_pos (d : Json) : 0 < jsonSize d := by
  cases d <;> simp [jsonSize]

theorem jsonSize_le_of_mem {kvs : List (String × Json)} {p : String × Json}
    (h : p ∈ kvs) : jsonSize p.2 ≤ jsonSizeObj kvs := by
  induction kvs with
  | nil => cases h
  | cons q qs ih =>
    rcases List.mem_cons.mp h with h | h
    · subst h
      simp [jsonSizeObj]
      omega
    · have := ih h
      simp [jsonSizeObj]
      omega

theorem dictGet_size_lt {kvs : List (String × Json)} {k : String} {v : Json}
    (h : dictGet kvs k = some v) : jsonSize v < jsonSize (Json.obj kvs) := by
  unfold dictGet at h
  cases hf : kvs.find? (fun p => p.1 == k) with
  | none => rw [hf] at h; cases h
  | some p =>
    rw [hf] at h
    cases h
    have hmem : p ∈ kvs := List.mem_of_find?_eq_some hf
    have := jsonSize_le_of_mem hmem
    simp [jsonSize]
    omega

theorem unwrapFuel_congr :
    ∀ (n m : Nat) (d : Json), jsonSize d ≤ n → jsonSize d ≤ m →
      unwrapFuel n d = unwrapFuel m d := by
  intro n
  induction n with
  | zero =>
    intro m d hn _
    have := jsonSize_pos d
    omega
  | succ n ih =>
    intro m d hn hm
    cases m with
    | zero =>
      have := jsonSize_pos d
      omega
    | succ m =>
      cases d with
      | obj kvs =>
        cases h : dictGet kvs "conversations" with
        | none => simp [unwrapFuel, h]
        | some v =>
          simp only [unwrapFuel, h]
          have hlt := dictGet_size_lt h
          exact ih m v (by omega) (by omega)
      | null => rfl
      | bool b => rfl
      | num n => rfl
      | str s => rfl
      | arr l => rfl

theorem unwrap_arr (l : List Json) : unwrap (Json.arr l) = Json.arr l := by
  unfold unwrap
  cases h : jsonSize (Json.arr l) with
  | zero => rfl
  | succ n => rfl

theorem unwrap_scalar {d : Json} (h : isListJson d = false)
    (h2 : isDictJson d = false) : unwrap d = d := by
  unfold unwrap
  cases d <;> simp [isListJson, isDictJson] at h h2 <;>
    exact (match hs : jsonSize _ with
      | 0 => rfl
      | Nat.succ n => rfl)

theorem unwrap_obj_nokey {kvs : List (String × Json)}
    (h : dictGet kvs "conversations" = none) :
    unwrap (Json.obj kvs) = Json.obj kvs := by
  unfold unwrap
  cases hs : jsonSize (Json.obj kvs) with
  | zero => rfl
  | succ n => simp [unwrapFuel, h]

theorem unwrap_obj_step {kvs : List (String × Json)} {v : Json}
    (h : dictGet kvs "conversations" = some v) :
    unwrap (Json.obj kvs) = unwrap v := by
  have hlt := dictGet_size_lt h
  have hsz : jsonSize (Json.obj kvs) = jsonSizeObj kvs + 1 := by
    simp [jsonSize]
    omega
  unfold unwrap
  rw [hsz]
  simp only [unwrapFuel, h]
  exact unwrapFuel_congr _ _ v (by omega) le_rfl

/-! ### The list-document filter computes the claimed per-conversation form -/

theorem getMsgs_of_isList {kvs : List (String × Json)} {k : String}
    (h : (match dictGet kvs k with
          | some v => isListJson v
          | none => true) = true) :
    getMsgs kvs k = Except.ok (specMsgList kvs k) := by
  unfold getMsgs specMsgList
  cases hd : dictGet kvs k with
  | none => rfl
  | some v =>
    rw [hd] at h
    cases v with
    | arr xs => rfl
    | null => simp [isListJson] at h
    | bool b => simp [isListJson] at h
    | num n => simp [isListJson] at h
    | str s => simp [isListJson] at h
    | obj m => simp [isListJson] at h

theorem convMatchFilter_iff {u : Json} {kvs : List (String × Json)} :
    convMatchFilter u kvs = true ↔ pyStr (convUserFilter kvs) = pyStr u := by
  simp [convMatchFilter]

theorem except_bind_ok {α β : Type} (a : α) (f : α → Except Unit β) :
    (Except.ok a >>= f) = f a := rfl

theorem except_bind_error {α β : Type} (e : Unit) (f : α → Except Unit β) :
    ((Except.error e : Except Unit α) >>= f) = Except.error e := rfl

theorem dictPop_of_hasKey_false {kvs : List (String × Json)} {k : String}
    (h : hasKey kvs k = false) : dictPop kvs k = kvs := by
  induction kvs with
  | nil => rfl
  | cons p ps ih =>
    cases hpk : p.1 == k with
    | true => simp [hasKey, dictGet, List.find?, hpk] at h
    | false =>
      simp only [hasKey, dictGet, List.find?, hpk] at h
      simp only [dictPop, List.filter, bne, hpk, Bool.not_false]
      exact congrArg (p :: ·) (ih h)

theorem filterList_cons_step (u : Json) (c : Json) (rest : List Json)
    (hc : (match c with
           | Json.obj kvs =>
             (match dictGet kvs "messages" with
              | some v => isListJson v
              | none => true) &&
             (match dictGet kvs "chat_messages" with
              | some v => isListJson v
              | none => true)
           | _ => true) = true) :
    filterList u (c :: rest) =
      (filterList u rest).map (fun r => filterSpecStep u c ++ r) := by
  cases c with
  | obj kvs =>
    simp only [Bool.and_eq_true] at hc
    obtain ⟨hm, hcm⟩ := hc
    have hgm := @getMsgs_of_isList kvs "messages" hm
    have hgc := @getMsgs_of_isList kvs "chat_messages" hcm
    by_cases hmatch : convMatchFilter u kvs = true
    · cases hres : filterList u rest <;>
        simp [filterList, filterSpecStep, hmatch, convMatchFilter_iff.mp hmatch,
          hres, Except.map, except_bind_ok, except_bind_error]
    · have hmatch2 : pyStr (convUserFilter kvs) ≠ pyStr u := by
        intro hx
        exact hmatch (convMatchFilter_iff.mpr hx)
      have hmatchb : convMatchFilter u kvs = false := by
        cases hb : convMatchFilter u kvs with
        | true => exact absurd hb hmatch
        | false => rfl
      by_cases hmm : ∃ x ∈ specMsgList kvs "messages", matchesTarget u x = true
      · cases hres : filterList u rest <;>
          simp [filterList, filterSpecStep, hmatchb, hmatch2, hgm, hgc, hmm,
            hres, Except.map, except_bind_ok, except_bind_error]
      · have hall : ∀ x ∈ specMsgList kvs "messages", matchesTarget u x = false := by
          simpa using hmm
        by_cases hcc : ∃ x ∈ specMsgList kvs "chat_messages", matchesTarget u x = true
        · cases hk : hasKey (dictSet kvs "chat_messages"
              (Json.arr ((specMsgList kvs "chat_messages").filter (matchesTarget u))))
              "messages" with
          | true =>
            cases hres : filterList u rest <;>
              simp [filterList, filterSpecStep, hmatchb, hmatch2, hgm, hgc, hmm,
                hcc, hk, hall, hres, Except.map, except_bind_ok, except_bind_error]
          | false =>
            have hpop := dictPop_of_hasKey_false hk
            cases hres : filterList u rest <;>
              simp [filterList, filterSpecStep, hmatchb, hmatch2, hgm, hgc, hmm,
                hcc, hk, hall, hpop, hres, Except.map, except_bind_ok,
                except_bind_error]
        · cases hres : filterList u rest <;>
            simp [filterList, filterSpecStep, hmatchb, hmatch2, hgm, hgc, hmm,
              hcc, hres, Except.map, except_bind_ok, except_bind_error]
  | null =>
    cases hres : filterList u rest <;>
      simp [filterList, filterSpecStep, hres, Except.map]
  | bool b =>
    cases hres : filterList u rest <;>
      simp [filterList, filterSpecStep, hres, Except.map]
  | num n =>
    cases hres : filterList u rest <;>
      simp [filterList, filterSpecStep, hres, Except.map]
  | str s =>
    cases hres : filterList u rest <;>
      simp [filterList, filterSpecStep, hres, Except.map]
  | arr xs =>
    cases hres : filterList u rest <;>
      simp [filterList, filterSpecStep, hres, Except.map]

/-! ### The string order of Python `sorted` and the extracted user set -/

theorem charListLt_asymm {a b : List Char} (h : charListLt a b = true) :
    charListLt b a = false := by
  induction a generalizing b with
  | nil =>
    cases b with
    | nil => simp [charListLt] at h
    | cons y ys => rfl
  | cons x xs ih =>
    cases b with
    | nil => simp [charListLt] at h
    | cons y ys =>
      by_cases h1 : x.toNat < y.toNat
      · have h2 : ¬ y.toNat < x.toNat := by omega
        simp [charListLt, h1, h2]
      · by_cases h2 : y.toNat < x.toNat
        · simp [charListLt, h1, h2] at h
        · simp only [charListLt, if_neg h1, if_neg h2] at h ⊢
          exact ih h

theorem charListLt_trans {a b c : List Char} (h1 : charListLt a b = true)
    (h2 : charListLt b c = true) : charListLt a c = true := by
  induction a generalizing b c with
  | nil =>
    cases c with
    | nil =>
      cases b with
      | nil => simpa using h1
      | cons y ys => simp [charListLt] at h2
    | cons z zs => rfl
  | cons x xs ih =>
    cases b with
    | nil => simp [charListLt] at h1
    | cons y ys =>
      cases c with
      | nil => simp [charListLt] at h2
      | cons z zs =>
        by_cases hxy : x.toNat < y.toNat <;> by_cases hyz : y.toNat < z.toNat
        · have hxz : x.toNat < z.toNat := by omega
          simp [charListLt, hxz]
        · by_cases hzy : z.toNat < y.toNat
          · simp [charListLt, hyz, hzy] at h2
          · have hxz : x.toNat < z.toNat := by omega
            simp [charListLt, hxz]
        · by_cases hyx : y.toNat < x.toNat
          · simp [charListLt, hxy, hyx] at h1
          · have hxz : x.toNat < z.toNat := by omega
            simp [charListLt, hxz]
        · by_cases hyx : y.toNat < x.toNat
          · simp [charListLt, hxy, hyx] at h1
          · by_cases hzy : z.toNat < y.toNat
            · simp [charListLt, hyz, hzy] at h2
            · simp only [charListLt, if_neg hxy, if_neg hyx] at h1
              simp only [charListLt, if_neg hyz, if_neg hzy] at h2
              have hxz1 : ¬ x.toNat < z.toNat := by omega
              have hxz2 : ¬ z.toNat < x.toNat := by omega
              simp only [charListLt, if_neg hxz1, if_neg hxz2]
              exact ih h1 h2

theorem charListLt_conn {a b : List Char} (h1 : charListLt a b = false)
    (h2 : charListLt b a = false) : a = b := by
  induction a generalizing b with
  | nil =>
    cases b with
    | nil => rfl
    | cons y ys => simp [charListLt] at h1
  | cons x xs ih =>
    cases b with
    | nil => simp [charListLt] at h2
    | cons y ys =>
      by_cases hxy : x.toNat < y.toNat
      · simp [charListLt, hxy] at h1
      · by_cases hyx : y.toNat < x.toNat
        · simp [charListLt, hyx] at h2
        · simp only [charListLt, if_neg hxy, if_neg hyx] at h1 h2
          have hn : x.toNat = y.toNat := by omega
          have hx : x = y := Char.eq_of_val_eq (UInt32.ext hn)
          rw [hx, ih h1 h2]

theorem string_eq_of_data_eq {a b : String} (h : a.data = b.data) : a = b := by
  cases a
  cases b
  simp_all

instance : IsTotal String strLeProp := by
  constructor
  intro a b
  unfold strLeProp pyStrLe
  cases hx : charListLt b.data a.data with
  | false => exact Or.inl (by simp)
  | true => exact Or.inr (by simp [charListLt_asymm hx])

instance : IsTrans String strLeProp := by
  constructor
  intro a b c h1 h2
  unfold strLeProp pyStrLe at h1 h2 ⊢
  simp only [Bool.not_eq_true'] at h1 h2 ⊢
  cases hca : charListLt c.data a.data with
  | false => rfl
  | true =>
    exfalso
    cases hbc : charListLt b.data c.data with
    | true => simp [charListLt_trans hbc hca] at h1
    | false =>
      have hbceq := charListLt_conn hbc h2
      rw [← hbceq] at hca
      simp [hca] at h1

instance : IsAntisymm String strLeProp := by
  constructor
  intro a b h1 h2
  unfold strLeProp pyStrLe at h1 h2
  simp only [Bool.not_eq_true'] at h1 h2
  exact string_eq_of_data_eq (charListLt_conn h2 h1)

theorem sortedDedup_sorted (xs : List String) :
    List.Sorted strLeProp (sortedDedup xs) :=
  List.sorted_insertionSort strLeProp xs.dedup

theorem sortedDedup_nodup (xs : List String) : (sortedDedup xs).Nodup :=
  (List.perm_insertionSort strLeProp xs.dedup).nodup_iff.mpr (List.nodup_dedup xs)

theorem sortedDedup_eq_of_perm {xs ys : List String} (h : xs.Perm ys) :
    sortedDedup xs = sortedDedup ys :=
  List.eq_of_perm_of_sorted
    ((List.perm_insertionSort strLeProp xs.dedup).trans
      (h.dedup.trans (List.perm_insertionSort strLeProp ys.dedup).symm))
    (sortedDedup_sorted xs) (sortedDedup_sorted ys)

theorem listContrib_perm {l1 l2 : List Json} (h : l1.Perm l2) :
    (listContrib l1 = Except.error () ∧ listContrib l2 = Except.error ()) ∨
    (∃ a b, listContrib l1 = Except.ok a ∧ listContrib l2 = Except.ok b ∧
      a.Perm b) := by
  induction h with
  | nil => exact Or.inr ⟨[], [], rfl, rfl, List.Perm.refl []⟩
  | cons x hrest ih =>
    cases hx : extractConvUsers x with
    | error e =>
      exact Or.inl ⟨by simp [listContrib, hx, except_bind_error],
        by simp [listContrib, hx, except_bind_error]⟩
    | ok a =>
      rcases ih with ⟨h1, h2⟩ | ⟨b1, b2, h1, h2, hp⟩
      · exact Or.inl
          ⟨by simp [listContrib, hx, h1, except_bind_ok, except_bind_error],
           by simp [listContrib, hx, h2, except_bind_ok, except_bind_error]⟩
      · exact Or.inr ⟨a ++ b1, a ++ b2,
          by simp [listContrib, hx, h1, except_bind_ok],
          by simp [listContrib, hx, h2, except_bind_ok],
          hp.append_left a⟩
  | swap x y l =>
    cases hx : extractConvUsers x with
    | error e =>
      cases hy : extractConvUsers y with
      | error e2 =>
        exact Or.inl
          ⟨by simp [listContrib, hx, hy, except_bind_ok, except_bind_error],
           by simp [listContrib, hx, hy, except_bind_ok, except_bind_error]⟩
      | ok ay =>
        exact Or.inl
          ⟨by simp [listContrib, hx, hy, except_bind_ok, except_bind_error],
           by simp [listContrib, hx, hy, except_bind_ok, except_bind_error]⟩
    | ok ax =>
      cases hy : extractConvUsers y with
      | error e2 =>
        exact Or.inl
          ⟨by simp [listContrib, hx, hy, except_bind_ok, except_bind_error],
           by simp [listContrib, hx, hy, except_bind_ok, except_bind_error]⟩
      | ok ay =>
        cases hl : listContrib l with
        | error e3 =>
          exact Or.inl
            ⟨by simp [listContrib, hx, hy, hl, except_bind_ok, except_bind_error],
             by simp [listContrib, hx, hy, hl, except_bind_ok, except_bind_error]⟩
        | ok c =>
          exact Or.inr ⟨ay ++ (ax ++ c), ax ++ (ay ++ c),
            by simp [listContrib, hx, hy, hl, except_bind_ok],
            by simp [listContrib, hx, hy, hl, except_bind_ok],
            List.perm_append_comm_assoc ay ax c⟩
  | trans hp1 hp2 ih1 ih2 =>
    rcases ih1 with ⟨ha, hb⟩ | ⟨a, b, ha, hb, hab⟩
    · rcases ih2 with ⟨hc, hd⟩ | ⟨c, d, hc, hd, hcd⟩
      · exact Or.inl ⟨ha, hd⟩
      · rw [hb] at hc
        cases hc
    · rcases ih2 with ⟨hc, hd⟩ | ⟨c, d, hc, hd, hcd⟩
      · rw [hb] at hc
        cases hc
      · rw [hb] at hc
        injection hc with hbc
        subst hbc
        exact Or.inr ⟨a, d, ha, hd, hab.trans hcd⟩

/-! ### Totality of the engine on well-formed documents -/

theorem getMsgs_ok_of_iterable {kvs : List (String × Json)} {k : String}
    (h : (match dictGet kvs k with
          | some v => isIterableJson v
          | none => true) = true) :
    ∃ xs, getMsgs kvs k = Except.ok xs := by
  unfold getMsgs
  cases hd : dictGet kvs k with
  | none => exact ⟨[], rfl⟩
  | some v =>
    rw [hd] at h
    cases v <;> simp [isIterableJson] at h <;> exact ⟨_, rfl⟩

theorem extractConvUsers_ok {c : Json} (h : convContainersIterable c = true) :
    ∃ a, extractConvUsers c = Except.ok a := by
  cases c with
  | obj kvs =>
    simp only [convContainersIterable, Bool.and_eq_true] at h
    obtain ⟨hm, hcm⟩ := h
    obtain ⟨xs, hxs⟩ := getMsgs_ok_of_iterable hm
    obtain ⟨ys, hys⟩ := getMsgs_ok_of_iterable hcm
    simp [extractConvUsers, hxs, hys, except_bind_ok]
  | null => exact ⟨[], rfl⟩
  | bool b => exact ⟨[], rfl⟩
  | num n => exact ⟨[], rfl⟩
  | str s => exact ⟨[], rfl⟩
  | arr xs => exact ⟨[], rfl⟩

theorem listContrib_ok {l : List Json}
    (h : l.all convContainersIterable = true) :
    ∃ a, listContrib l = Except.ok a := by
  induction l with
  | nil => exact ⟨[], rfl⟩
  | cons c rest ih =>
    simp only [List.all_cons, Bool.and_eq_true] at h
    obtain ⟨hc, hrest⟩ := h
    obtain ⟨a, ha⟩ := extractConvUsers_ok hc
    obtain ⟨b, hb⟩ := ih hrest
    exact ⟨a ++ b, by simp [listContrib, ha, hb, except_bind_ok]⟩

theorem countList_ok {l : List Json} (u : Json)
    (h : l.all convContainersIterable = true) :
    ∀ acc, ∃ n, countList u l acc = Except.ok n := by
  induction l with
  | nil => exact fun acc => ⟨acc, rfl⟩
  | cons c rest ih =>
    simp only [List.all_cons, Bool.and_eq_true] at h
    obtain ⟨hc, hrest⟩ := h
    intro acc
    cases c with
    | obj kvs =>
      simp only [convContainersIterable, Bool.and_eq_true] at hc
      obtain ⟨hm, hcm⟩ := hc
      obtain ⟨xs, hxs⟩ := getMsgs_ok_of_iterable hm
      obtain ⟨ys, hys⟩ := getMsgs_ok_of_iterable hcm
      obtain ⟨n1, hn1⟩ := ih hrest (acc + 1)
      obtain ⟨n2, hn2⟩ := ih hrest acc
      by_cases hcm2 : convMatchCount u kvs = true
      · simp [countList, hcm2, hn1]
      · by_cases hany : ∃ x ∈ xs, matchesTarget u x = true
        · simp [countList, hcm2, hxs, except_bind_ok, hany, hn1]
        · by_cases hacc : acc = 0
          · subst hacc
            obtain ⟨n3, hn3⟩ := ih hrest 1
            obtain ⟨n4, hn4⟩ := ih hrest 0
            by_cases hany2 : ∃ x ∈ ys, matchesTarget u x = true
            · simp [countList, hcm2, hxs, hys, except_bind_ok, hany, hany2, hn3]
            · simp [countList, hcm2, hxs, hys, except_bind_ok, hany, hany2, hn4]
          · simp [countList, hcm2, hxs, except_bind_ok, hany, hacc, hn2]
    | null => exact (ih hrest acc).imp (fun n hn => by simp [countList, hn])
    | bool b => exact (ih hrest acc).imp (fun n hn => by simp [countList, hn])
    | num n => exact (ih hrest acc).imp (fun n hn => by simp [countList, hn])
    | str s => exact (ih hrest acc).imp (fun n hn => by simp [countList, hn])
    | arr xs => exact (ih hrest acc).imp (fun n hn => by simp [countList, hn])

theorem filterList_ok {l : List Json} (u : Json)
    (h : l.all convContainersIterable = true) :
    ∃ r, filterList u l = Except.ok r := by
  induction l with
  | nil => exact ⟨[], rfl⟩
  | cons c rest ih =>
    simp only [List.all_cons, Bool.and_eq_true] at h
    obtain ⟨hc, hrest⟩ := h
    obtain ⟨r, hr⟩ := ih hrest
    cases c with
    | obj kvs =>
      simp only [convContainersIterable, Bool.and_eq_true] at hc
      obtain ⟨hm, hcm⟩ := hc
      obtain ⟨xs, hxs⟩ := getMsgs_ok_of_iterable hm
      obtain ⟨ys, hys⟩ := getMsgs_ok_of_iterable hcm
      by_cases hcm2 : convMatchFilter u kvs = true
      · simp [filterList, hcm2, hr, except_bind_ok]
      · by_cases hne : ∃ x ∈ xs, matchesTarget u x = true
        · simp [filterList, hcm2, hxs, except_bind_ok, hne, hr]
        · by_cases hne2 : ∃ x ∈ ys, matchesTarget u x = true
          · simp [filterList, hcm2, hxs, hys, except_bind_ok, hne, hne2, hr]
          · simp [filterList, hcm2, hxs, hys, except_bind_ok, hne, hne2, hr]
    | null => exact ⟨r, by simp [filterList, hr]⟩
    | bool b => exact ⟨r, by simp [filterList, hr]⟩
    | num n => exact ⟨r, by simp [filterList, hr]⟩
    | str s => exact ⟨r, by simp [filterList, hr]⟩
    | arr xs => exact ⟨r, by simp [filterList, hr]⟩

/-! ### Claim theorems -/

/-- C1: the claimed cardinality agreement `count(D, U) == len(filter(D, U))`
fails on the code.  On the two-conversation document below — the first owned
by `u1`, the second matching `u1` only inside `chat_messages` — the counter
returns 1 (its `if count == 0` gate, source line 201, consults the global
running count and so skips the second conversation), while the filter keeps
both conversations. -/
theorem count_filter_cardinality_disagree :
    get_user_conversation_count
      (Json.arr [Json.obj [("user_id", Json.str "u1")],
        Json.obj [("chat_messages",
          Json.arr [Json.obj [("sender", Json.str "u1")]])]])
      (Json.str "u1") = Except.ok 1 ∧
    (filter_conversations_by_user
      (Json.arr [Json.obj [("user_id", Json.str "u1")],
        Json.obj [("chat_messages",
          Json.arr [Json.obj [("sender", Json.str "u1")]])]])
      (Json.str "u1")).map List.length = Except.ok 2 := by
  exact ⟨by decide, by decide⟩

/-- C2: the claimed per-conversation increment rule fails on the code: the
`chat_messages` check is gated on the GLOBAL running count being zero
(`if count == 0`, source line 201), not on the current conversation being
uncounted.  With an `account`-owned conversation first, a later conversation
matching only via `chat_messages` contributes nothing (count 1); with the
same two conversations in the opposite order both contribute (count 2). -/
theorem chat_gate_uses_global_count :
    get_user_conversation_count
      (Json.arr [Json.obj [("account", Json.obj [("uuid", Json.str "w1")])],
        Json.obj [("chat_messages",
          Json.arr [Json.obj [("sender", Json.str "w1")]])]])
      (Json.str "w1") = Except.ok 1 ∧
    get_user_conversation_count
      (Json.arr [Json.obj [("chat_messages",
          Json.arr [Json.obj [("sender", Json.str "w1")]])],
        Json.obj [("account", Json.obj [("uuid", Json.str "w1")])]])
      (Json.str "w1") = Except.ok 2 := by
  exact ⟨by decide, by decide⟩

/-- C3, counterexample: extraction treats the fieldless conversation `{}` as
ownerless (extracted user set is empty), yet counting and filtering compare
`str(conv_user) = "None"` with the target's string form, so the target
`"None"` IS attributed that conversation at the conversation level: the
count is 1 and the filter includes the conversation verbatim. -/
theorem ownerless_conv_attributed_to_none_target :
    extract_users (Json.arr [Json.obj []]) = Except.ok [] ∧
    get_user_conversation_count (Json.arr [Json.obj []]) (Json.str "None") =
      Except.ok 1 ∧
    filter_conversations_by_user (Json.arr [Json.obj []]) (Json.str "None") =
      Except.ok [Json.obj []] := by
  refine ⟨by decide, by decide, ?_⟩
  rfl

/-- C3, amended: extraction, counting and filtering resolve a conversation's
owner with the same candidate fields in the same priority order, and absence
of every candidate field yields no owner in extraction; counting and
filtering, however, compare the Python string form of the raw resolution
(absence rendered as `"None"`) with the target's string form, so a
conversation that extraction treats as ownerless is never attributed at the
conversation level only for targets whose string form differs from the
string form of that raw resolution. -/
theorem resolution_policy_amended :
    (∀ kvs, convUserExtract kvs = convUserCount kvs ∧
      convUserFilter kvs = convUserCount kvs) ∧
    (∀ kvs, hasKey kvs "user_id" = false → hasKey kvs "userId" = false →
      hasKey kvs "user" = false → hasKey kvs "author" = false →
      hasKey kvs "account" = false → convUserExtract kvs = Json.null) ∧
    (∀ (u : Json) (kvs), pyTruthy (convUserExtract kvs) = false →
      pyStr u ≠ pyStr (convUserCount kvs) →
      convMatchCount u kvs = false ∧ convMatchFilter u kvs = false) := by
  refine ⟨fun kvs => ⟨rfl, rfl⟩, ?_, ?_⟩
  · intro kvs h1 h2 h3 h4 h5
    have g1 := dictGet_none_of_hasKey_false h1
    have g2 := dictGet_none_of_hasKey_false h2
    have g3 := dictGet_none_of_hasKey_false h3
    have g4 := dictGet_none_of_hasKey_false h4
    have g5 := dictGet_none_of_hasKey_false h5
    simp [convUserExtract, pyGet, pyOr, pyTruthy, g1, g2, g3, g4, g5]
  · intro u kvs _ hne
    constructor
    · exact beq_eq_false_iff_ne.mpr (Ne.symm hne)
    · exact beq_eq_false_iff_ne.mpr (Ne.symm hne)

/-- C3, witness for the amended theorem at concrete inputs. -/
theorem resolution_policy_amended_witness :
    convUserExtract [("x", Json.null)] = convUserCount [("x", Json.null)] ∧
    convMatchCount (Json.str "u9") [] = false := by
  refine ⟨(resolution_policy_amended.1 [("x", Json.null)]).1, ?_⟩
  exact (resolution_policy_amended.2.2 (Json.str "u9") [] (by decide)
    (by decide)).1

/-- C4, counterexample: on the document `[{"messages": null}]` all three
core functions raise (`for message in None` is a `TypeError`), so the claim
that no exception escapes for every JSON document fails. -/
theorem core_functions_raise_on_null_messages :
    extract_users (Json.arr [Json.obj [("messages", Json.null)]]) =
      Except.error () ∧
    get_user_conversation_count (Json.arr [Json.obj [("messages", Json.null)]])
      (Json.str "vv") = Except.error () ∧
    filter_conversations_by_user (Json.arr [Json.obj [("messages", Json.null)]])
      (Json.str "vv") = Except.error () := by
  refine ⟨by decide, by decide, ?_⟩
  rfl

/-- C4, amended: missing fields and malformed ownership fields are treated
as absent, and extract_users, get_user_conversation_count and
filter_conversations_by_user return normally on every well-formed document:
one where (after the `conversations` chain) every conversation's present
`messages`/`chat_messages` value is iterable (a list, dict or string) and
every keyed-by-user value's `conversations` sub-value (if any) has a Python
length.  A non-iterable (null/boolean/number) message container, or an
unsized `conversations` sub-value, raises a `TypeError` that escapes. -/
theorem core_functions_total_on_wellformed (d : Json) (u : Json)
    (h : wellFormed d = true) :
    (∃ r, extract_users d = Except.ok r) ∧
    (∃ n, get_user_conversation_count d u = Except.ok n) ∧
    (∃ l, filter_conversations_by_user d u = Except.ok l) := by
  cases hu : unwrap d with
  | arr l =>
    simp only [wellFormed, hu] at h
    refine ⟨?_, ?_, ?_⟩
    · obtain ⟨a, ha⟩ := listContrib_ok h
      exact ⟨sortedDedup a, by simp [extract_users, hu, ha, Except.map]⟩
    · obtain ⟨n, hn⟩ := countList_ok u h 0
      exact ⟨n, by simp [get_user_conversation_count, hu, hn]⟩
    · obtain ⟨r, hr⟩ := filterList_ok u h
      exact ⟨r, by simp [filter_conversations_by_user, hu, hr]⟩
  | obj kvs =>
    simp only [wellFormed, hu] at h
    refine ⟨?_, ?_, ?_⟩
    · simp [extract_users, hu]
    · cases hd : dictGet kvs (pyStr u) with
      | none => simp [get_user_conversation_count, hu, hd]
      | some v =>
        cases v with
        | obj m =>
          cases hc2 : dictGet m "conversations" with
          | none => simp [get_user_conversation_count, hu, hd, hc2]
          | some w =>
            have hmem : ∃ p, p ∈ kvs ∧ p.2 = Json.obj m := by
              unfold dictGet at hd
              cases hf : kvs.find? (fun p => p.1 == pyStr u) with
              | none => rw [hf] at hd; cases hd
              | some p =>
                rw [hf] at hd
                exact ⟨p, List.mem_of_find?_eq_some hf, by injection hd⟩
            obtain ⟨p, hp, hp2⟩ := hmem
            have hkv : keyedValueSized p.2 = true :=
              List.all_eq_true.mp h p hp
            rw [hp2] at hkv
            simp only [keyedValueSized, hc2] at hkv
            cases w <;> simp [isIterableJson] at hkv <;>
              simp [get_user_conversation_count, hu, hd, hc2, pyLen]
        | null => simp [get_user_conversation_count, hu, hd]
        | bool b => simp [get_user_conversation_count, hu, hd]
        | num n => simp [get_user_conversation_count, hu, hd]
        | str s => simp [get_user_conversation_count, hu, hd]
        | arr xs => simp [get_user_conversation_count, hu, hd]
    · cases hd : dictGet kvs (pyStr u) with
      | none => simp [filter_conversations_by_user, hu, hd]
      | some v =>
        cases v <;> simp [filter_conversations_by_user, hu, hd]
  | null =>
    refine ⟨?_, ?_, ?_⟩ <;>
      simp [extract_users, get_user_conversation_count,
        filter_conversations_by_user, hu]
  | bool b =>
    refine ⟨?_, ?_, ?_⟩ <;>
      simp [extract_users, get_user_conversation_count,
        filter_conversations_by_user, hu]
  | num n =>
    refine ⟨?_, ?_, ?_⟩ <;>
      simp [extract_users, get_user_conversation_count,
        filter_conversations_by_user, hu]
  | str s =>
    refine ⟨?_, ?_, ?_⟩ <;>
      simp [extract_users, get_user_conversation_count,
        filter_conversations_by_user, hu]

/-- C4, witness for the amended theorem at a concrete well-formed
document. -/
theorem core_functions_total_on_wellformed_witness :
    (∃ r, extract_users (Json.arr [Json.obj [("user_id", Json.str "a"),
      ("messages", Json.arr [])]]) = Except.ok r) ∧
    (∃ n, get_user_conversation_count (Json.arr [Json.obj
      [("user_id", Json.str "a"), ("messages", Json.arr [])]])
      (Json.str "a") = Except.ok n) ∧
    (∃ l, filter_conversations_by_user (Json.arr [Json.obj
      [("user_id", Json.str "a"), ("messages", Json.arr [])]])
      (Json.str "a") = Except.ok l) :=
  core_functions_total_on_wellformed
    (Json.arr [Json.obj [("user_id", Json.str "a"), ("messages", Json.arr [])]])
    (Json.str "a") (by decide)

/-- C5: on a list document whose message containers are lists, the filter
returns exactly the claimed per-conversation form: a conversation is kept
verbatim on a conversation-level owner match (which takes priority over
message-level trimming); otherwise a shallow copy with `messages` replaced
by exactly the matching messages when some `messages` entry resolves to the
target; otherwise a shallow copy with `chat_messages` replaced by exactly
the matching entries and `messages` removed when present; otherwise the
conversation is omitted. -/
theorem filter_list_claimed_form (l : List Json) (u : Json)
    (h : msgContainersAreLists l = true) :
    filter_conversations_by_user (Json.arr l) u =
      Except.ok (l.flatMap (filterSpecStep u)) := by
  have hgoal : ∀ (l2 : List Json), msgContainersAreLists l2 = true →
      filterList u l2 = Except.ok (l2.flatMap (filterSpecStep u)) := by
    intro l2
    induction l2 with
    | nil => intro _; rfl
    | cons c rest ih =>
      intro h2
      simp only [msgContainersAreLists, List.all_cons, Bool.and_eq_true] at h2
      obtain ⟨hc, hrest⟩ := h2
      rw [filterList_cons_step u c rest hc, ih hrest]
      simp [Except.map]
  simp only [filter_conversations_by_user, unwrap_arr]
  exact hgoal l h

/-- C5, witness: Scenario C of the specification — a conversation with no
owner and two message senders is trimmed to the matching sender for each
target and dropped for an unknown target. -/
theorem filter_list_claimed_form_witness :
    filter_conversations_by_user
      (Json.arr [Json.obj [("messages",
        Json.arr [Json.obj [("sender", Json.str "u3")],
          Json.obj [("sender", Json.str "u4")]])]])
      (Json.str "u3") =
      Except.ok [Json.obj [("messages",
        Json.arr [Json.obj [("sender", Json.str "u3")]])]] ∧
    filter_conversations_by_user
      (Json.arr [Json.obj [("messages",
        Json.arr [Json.obj [("sender", Json.str "u3")],
          Json.obj [("sender", Json.str "u4")]])]])
      (Json.str "u5") = Except.ok [] := by
  constructor
  · have h := filter_list_claimed_form
      [Json.obj [("messages",
        Json.arr [Json.obj [("sender", Json.str "u3")],
          Json.obj [("sender", Json.str "u4")]])]]
      (Json.str "u3") (by decide)
    rw [h]
    rfl
  · have h := filter_list_claimed_form
      [Json.obj [("messages",
        Json.arr [Json.obj [("sender", Json.str "u3")],
          Json.obj [("sender", Json.str "u4")]])]]
      (Json.str "u5") (by decide)
    rw [h]
    rfl

/-- C6: `extract_users` is a pure deterministic function; whenever it
returns a result the result is a duplicate-free list of identifier strings
sorted lexicographically (Python string order); and on list documents the
result is invariant under any permutation of the conversations (the two
runs return identical values, errors included). -/
theorem extract_users_sorted_nodup_perm_invariant :
    (∀ d : Json, extract_users d = extract_users d) ∧
    (∀ (d : Json) (r : List String), extract_users d = Except.ok r →
      List.Sorted strLeProp r ∧ r.Nodup) ∧
    (∀ l1 l2 : List Json, l1.Perm l2 →
      extract_users (Json.arr l1) = extract_users (Json.arr l2)) := by
  refine ⟨fun d => rfl, ?_, ?_⟩
  · intro d r h
    cases hu : unwrap d with
    | arr l =>
      simp only [extract_users, hu] at h
      cases hc : listContrib l with
      | error e =>
        rw [hc] at h
        simp [Except.map] at h
      | ok xs =>
        rw [hc] at h
        simp only [Except.map, Except.ok.injEq] at h
        rw [← h]
        exact ⟨sortedDedup_sorted xs, sortedDedup_nodup xs⟩
    | obj kvs =>
      simp only [extract_users, hu, Except.ok.injEq] at h
      rw [← h]
      exact ⟨sortedDedup_sorted _, sortedDedup_nodup _⟩
    | null =>
      simp only [extract_users, hu, Except.ok.injEq] at h
      rw [← h]
      exact ⟨List.sorted_nil, List.nodup_nil⟩
    | bool b =>
      simp only [extract_users, hu, Except.ok.injEq] at h
      rw [← h]
      exact ⟨List.sorted_nil, List.nodup_nil⟩
    | num n =>
      simp only [extract_users, hu, Except.ok.injEq] at h
      rw [← h]
      exact ⟨List.sorted_nil, List.nodup_nil⟩
    | str s =>
      simp only [extract_users, hu, Except.ok.injEq] at h
      rw [← h]
      exact ⟨List.sorted_nil, List.nodup_nil⟩
  · intro l1 l2 hp
    simp only [extract_users, unwrap_arr]
    rcases listContrib_perm hp with ⟨h1, h2⟩ | ⟨a, b, h1, h2, hab⟩
    · rw [h1, h2]
    · rw [h1, h2]
      simp only [Except.map]
      rw [sortedDedup_eq_of_perm hab]

/-- C6, witness: swapping two conversations leaves the extracted user list
unchanged, and a concrete extracted result is sorted and duplicate-free. -/
theorem extract_users_sorted_nodup_perm_invariant_witness :
    extract_users (Json.arr [Json.obj [("user_id", Json.str "b")],
        Json.obj [("user_id", Json.str "a")]]) =
      extract_users (Json.arr [Json.obj [("user_id", Json.str "a")],
        Json.obj [("user_id", Json.str "b")]]) ∧
    (List.Sorted strLeProp ["a", "b"] ∧ ["a", "b"].Nodup) := by
  constructor
  · exact extract_users_sorted_nodup_perm_invariant.2.2
      [Json.obj [("user_id", Json.str "b")], Json.obj [("user_id", Json.str "a")]]
      [Json.obj [("user_id", Json.str "a")], Json.obj [("user_id", Json.str "b")]]
      (List.Perm.swap _ _ _)
  · exact extract_users_sorted_nodup_perm_invariant.2.1
      (Json.arr [Json.obj [("user_id", Json.str "b")],
        Json.obj [("user_id", Json.str "a")]])
      ["a", "b"] (by decide)

/-- C7: `get_user_display_name` returns the identifier when it is absent
from the identity mapping or when its record has neither (truthy) name nor
email; `"name (email)"` when both are present; `"name [{first 8}...]"` /
`"email [{first 8}...]"` when exactly one is present, where taking the
first 8 characters of a shorter identifier safely yields the identifier. -/
theorem display_name_cases (uid : String) (m : List (String × UserInfo)) :
    (infoGet m uid = none → get_user_display_name uid m = uid) ∧
    (∀ info, infoGet m uid = some info →
      (pyTruthy info.name = true → pyTruthy info.email = true →
        get_user_display_name uid m =
          pyStr info.name ++ " (" ++ pyStr info.email ++ ")") ∧
      (pyTruthy info.name = true → pyTruthy info.email = false →
        get_user_display_name uid m =
          pyStr info.name ++ " [" ++ pyTake uid 8 ++ "...]") ∧
      (pyTruthy info.name = false → pyTruthy info.email = true →
        get_user_display_name uid m =
          pyStr info.email ++ " [" ++ pyTake uid 8 ++ "...]") ∧
      (pyTruthy info.name = false → pyTruthy info.email = false →
        get_user_display_name uid m = uid)) ∧
    (uid.data.length ≤ 8 → pyTake uid 8 = uid) := by
  refine ⟨?_, ?_, ?_⟩
  · intro h
    simp [get_user_display_name, h]
  · intro info h
    have hm : m.isEmpty = false := by
      cases m with
      | nil => simp [infoGet, List.find?] at h
      | cons a as => rfl
    refine ⟨?_, ?_, ?_, ?_⟩ <;> intro hn he <;>
      simp [get_user_display_name, hm, h, hn, he]
  · intro h
    simp [pyTake, List.take_of_length_le h]

/-- C7, witness: a two-character identifier with a name-only record yields
the truncated display label without error. -/
theorem display_name_cases_witness :
    get_user_display_name "ab"
      [("ab", UserInfo.mk (Json.str "Alice") Json.null)] = "Alice [ab...]" := by
  have h := ((display_name_cases "ab"
    [("ab", UserInfo.mk (Json.str "Alice") Json.null)]).2.1
    (UserInfo.mk (Json.str "Alice") Json.null) rfl).2.1
  exact h (by decide) (by decide)

/-- C8, counterexample: on the keyed-by-user document
`{"u6x": {"conversations": 5}}` the claim demands a normal return (a length
or 0), but the code calls `len(5)` and a `TypeError` escapes. -/
theorem count_keyed_raises_on_unsized :
    get_user_conversation_count
      (Json.obj [("u6x", Json.obj [("conversations", Json.num 5)])])
      (Json.str "u6x") = Except.error () := by
  decide

/-- C8, amended: for a keyed-by-user mapping document (no top-level
`conversations` key): a missing target key gives 0; a list value gives its
length; a dict value with a `conversations` key gives the Python `len` of
that sub-value (which raises when the sub-value has no length); a dict
value without that key, or a value of any other shape, gives 0. -/
theorem count_keyed_amended (kvs : List (String × Json)) (u : Json)
    (hno : hasKey kvs "conversations" = false) :
    (dictGet kvs (pyStr u) = none →
      get_user_conversation_count (Json.obj kvs) u = Except.ok 0) ∧
    (∀ xs, dictGet kvs (pyStr u) = some (Json.arr xs) →
      get_user_conversation_count (Json.obj kvs) u = Except.ok xs.length) ∧
    (∀ m v, dictGet kvs (pyStr u) = some (Json.obj m) →
      dictGet m "conversations" = some v →
      get_user_conversation_count (Json.obj kvs) u = pyLen v) ∧
    (∀ m, dictGet kvs (pyStr u) = some (Json.obj m) →
      dictGet m "conversations" = none →
      get_user_conversation_count (Json.obj kvs) u = Except.ok 0) ∧
    (∀ v, dictGet kvs (pyStr u) = some v → isListJson v = false →
      isDictJson v = false →
      get_user_conversation_count (Json.obj kvs) u = Except.ok 0) := by
  have hu := unwrap_obj_nokey (dictGet_none_of_hasKey_false hno)
  refine ⟨?_, ?_, ?_, ?_, ?_⟩
  · intro h
    simp [get_user_conversation_count, hu, h]
  · intro xs h
    simp [get_user_conversation_count, hu, h]
  · intro m v h h2
    simp [get_user_conversation_count, hu, h, h2]
  · intro m h h2
    simp [get_user_conversation_count, hu, h, h2]
  · intro v h h1 h2
    cases v <;> simp [isListJson, isDictJson] at h1 h2 <;>
      simp [get_user_conversation_count, hu, h]

/-- C8, witness for the amended theorem: a two-element list value counts 2,
and a dict value with a string `conversations` sub-value counts its
character length. -/
theorem count_keyed_amended_witness :
    get_user_conversation_count (Json.obj [("u7", Json.arr [Json.num 1, Json.num 2])])
      (Json.str "u7") = Except.ok 2 ∧
    get_user_conversation_count (Json.obj [("u7", Json.obj [("conversations", Json.str "abc")])])
      (Json.str "u7") = Except.ok 3 := by
  constructor
  · exact (count_keyed_amended [("u7", Json.arr [Json.num 1, Json.num 2])]
      (Json.str "u7") (by decide)).2.1 [Json.num 1, Json.num 2] rfl
  · exact (count_keyed_amended [("u7", Json.obj [("conversations", Json.str "abc")])]
      (Json.str "u7") (by decide)).2.2.1 [("conversations", Json.str "abc")]
      (Json.str "abc") rfl rfl

/-- C9: for a keyed-by-user mapping document (no top-level `conversations`
key) the filter returns the target key's list value as-is, wraps a dict
value in a singleton, and returns the empty sequence — never an error —
when the key is absent or the value has any other shape. -/
theorem filter_keyed_shapes (kvs : List (String × Json)) (u : Json)
    (hno : hasKey kvs "conversations" = false) :
    (dictGet kvs (pyStr u) = none →
      filter_conversations_by_user (Json.obj kvs) u = Except.ok []) ∧
    (∀ xs, dictGet kvs (pyStr u) = some (Json.arr xs) →
      filter_conversations_by_user (Json.obj kvs) u = Except.ok xs) ∧
    (∀ m, dictGet kvs (pyStr u) = some (Json.obj m) →
      filter_conversations_by_user (Json.obj kvs) u = Except.ok [Json.obj m]) ∧
    (∀ v, dictGet kvs (pyStr u) = some v → isListJson v = false →
      isDictJson v = false →
      filter_conversations_by_user (Json.obj kvs) u = Except.ok []) := by
  have hu := unwrap_obj_nokey (dictGet_none_of_hasKey_false hno)
  refine ⟨?_, ?_, ?_, ?_⟩
  · intro h
    simp [filter_conversations_by_user, hu, h]
  · intro xs h
    simp [filter_conversations_by_user, hu, h]
  · intro m h
    simp [filter_conversations_by_user, hu, h]
  · intro v h h1 h2
    cases v <;> simp [isListJson, isDictJson] at h1 h2 <;>
      simp [filter_conversations_by_user, hu, h]

/-- C9, witness: a scalar value for the target key filters to the empty
sequence without error. -/
theorem filter_keyed_shapes_witness :
    filter_conversations_by_user (Json.obj [("u8", Json.num 3)])
      (Json.str "u8") = Except.ok [] := by
  exact (filter_keyed_shapes [("u8", Json.num 3)] (Json.str "u8")
    (by decide)).2.2.2 (Json.num 3) rfl (by decide) (by decide)

/-- C10: on a keyed-by-user document whose target key maps to a dict with
no `conversations` key, the counter returns 0 while the filter returns the
one-element sequence holding that dict, so count and filtered cardinality
disagree on this shape. -/
theorem keyed_dict_value_count_filter_disagree
    (kvs : List (String × Json)) (u : Json) (m : List (String × Json))
    (h1 : hasKey kvs "conversations" = false)
    (h2 : dictGet kvs (pyStr u) = some (Json.obj m))
    (h3 : hasKey m "conversations" = false) :
    get_user_conversation_count (Json.obj kvs) u = Except.ok 0 ∧
    filter_conversations_by_user (Json.obj kvs) u = Except.ok [Json.obj m] := by
  have hm := dictGet_none_of_hasKey_false h3
  have hu := unwrap_obj_nokey (dictGet_none_of_hasKey_false h1)
  constructor
  · simp [get_user_conversation_count, hu, h2, hm]
  · simp [filter_conversations_by_user, hu, h2]

/-- C10, witness at a concrete keyed document. -/
theorem keyed_dict_value_count_filter_disagree_witness :
    get_user_conversation_count (Json.obj [("z1", Json.obj [("a", Json.num 1)])])
      (Json.str "z1") = Except.ok 0 ∧
    filter_conversations_by_user (Json.obj [("z1", Json.obj [("a", Json.num 1)])])
      (Json.str "z1") = Except.ok [Json.obj [("a", Json.num 1)]] := by
  exact keyed_dict_value_count_filter_disagree [("z1", Json.obj [("a", Json.num 1)])]
    (Json.str "z1") [("a", Json.num 1)] (by decide) rfl (by decide)

end ClaudeExport
